import Mathlib

/-!
Shallow embedding of the steamid library (github.com/leighmacdonald/steamid):
the identifier codec of src/steamid/steamid.go (the `New` constructor, the
Steam2/Steam3/Steam64 renderers, `Int64` packing and `Valid`), the free-text
scanner `ParseString`, and the `status`-output parser of src/extra/status.go.

Machine integers are modelled as `Nat` with explicit reductions modulo
`2 ^ 64` (Go `uint64`) and `2 ^ 32` (Go `uint32` / `SID32`) at the points
where the Go code converts or overflows.  Strings are modelled as `List Char`.
The anchored regular expressions `reSteam2` and `reSteam3` used by `New` are
translated into deterministic character-list parsers (both patterns are
backtracking-free: every quantified class is followed by a character that can
never belong to the class).
-/

namespace Steamid

/-- 2 ^ 64, the modulus of Go's `uint64` arithmetic. -/
def U64 : Nat := 18446744073709551616

/-- 2 ^ 32, the modulus of Go's `uint32` arithmetic (type `SID32`). -/
def U32 : Nat := 4294967296

/-- `BaseSID = uint64(76561197960265728)` from steamid.go. -/
def BaseSID : Nat := 76561197960265728

/-- `InstanceMask = 0x000FFFFF` from steamid.go. -/
def InstanceMask : Nat := 0x000FFFFF

/-- `ClanMask = (InstanceMask + 1) >> 1` from steamid.go. -/
def ClanMask : Nat := (InstanceMask + 1) >>> 1

/-- `Lobby = (InstanceMask + 1) >> 2` from steamid.go. -/
def Lobby : Nat := (InstanceMask + 1) >>> 2

/-! Universe constants (`UniverseInvalid` .. `UniverseRC` are iota 0..5). -/

def UniverseInvalid : Nat := 0
def UniversePublic : Nat := 1
def UniverseBeta : Nat := 2
def UniverseInternal : Nat := 3
def UniverseDev : Nat := 4
def UniverseRC : Nat := 5

/-! AccountType constants (`AccountTypeInvalid` .. `AccountTypeAnonUser` are iota 0..10). -/

def AccountTypeInvalid : Nat := 0
def AccountTypeIndividual : Nat := 1
def AccountTypeMultiSeat : Nat := 2
def AccountTypeGameServer : Nat := 3
def AccountTypeAnonGameServer : Nat := 4
def AccountTypePending : Nat := 5
def AccountTypeContentServer : Nat := 6
def AccountTypeClan : Nat := 7
def AccountTypeChat : Nat := 8
def AccountTypeP2PSuperSeeder : Nat := 9
def AccountTypeAnonUser : Nat := 10

/-! Instance constants (`InstanceAll` .. `InstanceWeb` are iota 0..3). -/

def InstanceAll : Nat := 0
def InstanceDesktop : Nat := 1
def InstanceConsole : Nat := 2
def InstanceWeb : Nat := 3

/-- The `SteamID` struct of steamid.go: `AccountID` has Go type `SID32`
(`uint32`), the other three fields are Go `int` enumerations.  All four are
modelled as `Nat`; every constructor below truncates `AccountID` modulo
`2 ^ 32` exactly where the Go code converts to `SID32`. -/
structure SteamID where
  AccountID : Nat
  Instance : Nat
  AccountType : Nat
  Universe : Nat
deriving DecidableEq, Repr

/-- The zero value every branch of `New` starts from: all fields zero/Invalid
(`InstanceAll`, `AccountTypeInvalid`, `UniverseInvalid`). -/
def invalidSid : SteamID :=
  { AccountID := 0, Instance := InstanceAll
    AccountType := AccountTypeInvalid, Universe := UniverseInvalid }

/-! ### Character and decimal-string helpers -/

/-- The character class `[0-9]` (code points 48..57). -/
def isDigitCh (c : Char) : Bool := 48 ≤ c.toNat && c.toNat ≤ 57

/-- The character class `[a-zA-Z]`. -/
def isAlphaCh (c : Char) : Bool :=
  (97 ≤ c.toNat && c.toNat ≤ 122) || (65 ≤ c.toNat && c.toNat ≤ 90)

/-- The character class `[0-5]` (code points 48..53). -/
def isUniverseCh (c : Char) : Bool := 48 ≤ c.toNat && c.toNat ≤ 53

/-- The character class `[0-1]`. -/
def isAuthCh (c : Char) : Bool := c = '0' || c = '1'

/-- Numeric value of a decimal digit character. -/
def digitVal (c : Char) : Nat := c.toNat - 48

/-- Value of a decimal digit string (mathematical, unbounded). -/
def digitsVal (cs : List Char) : Nat := cs.foldl (fun a c => 10 * a + digitVal c) 0

/-- Model of `strconv.ParseUint(value, 10, 64)`: succeeds exactly on nonempty
all-digit strings whose value fits in 64 bits (Go reports `ErrRange` on
overflow, which `New` treats as failure). -/
def parseUint64? (cs : List Char) : Option Nat :=
  if !cs.isEmpty && cs.all isDigitCh && digitsVal cs < U64 then some (digitsVal cs) else none

/-- The decimal digit character for `d < 10` (as produced by `fmt.Sprintf("%d", ...)`). -/
def decDigit (d : Nat) : Char := Char.ofNat (48 + d)

/-- Worker for `natToChars`; structural recursion on a fuel argument that
always dominates the number of digits. -/
def natToCharsAux : Nat → Nat → List Char → List Char
  | 0, _, acc => acc
  | fuel + 1, n, acc =>
    if n < 10 then decDigit n :: acc
    else natToCharsAux fuel (n / 10) (decDigit (n % 10) :: acc)

/-- Decimal rendering of a natural number, as produced by `fmt.Sprintf("%d", n)`
and `strconv` for non-negative values. -/
def natToChars (n : Nat) : List Char := natToCharsAux (n + 1) n []

/-- Decimal rendering of a (signed) integer, as produced by `fmt.Sprintf("%d", v)`. -/
def intToChars (v : Int) : List Char :=
  if v < 0 then '-' :: natToChars (-v).toNat else natToChars v.toNat

/-! ### The two anchored regular expressions of `New`

`reSteam2 = ^STEAM_([0-5]):([0-1]):([0-9]+)$` and
`reSteam3 = ^\[([a-zA-Z]):([0-5]):([0-9]+)(:[0-9]+)?]$`.
Both are deterministic; they are modelled as straight-line character parsers.
`expectChar`/`expectCls` consume one literal character / one character of a
class. -/

def expectChar (c : Char) : List Char → Option (List Char)
  | x :: rest => if x = c then some rest else none
  | [] => none

def expectCls (f : Char → Bool) : List Char → Option (Char × List Char)
  | x :: rest => if f x then some (x, rest) else none
  | [] => none

/-- Match of `reSteam2` on the whole string: returns the universe digit, the
auth digit and the account-half digit string (capture groups 1..3). -/
def parseSteam2? (cs : List Char) : Option (Nat × Nat × List Char) := do
  let r1 ← expectChar 'S' cs
  let r2 ← expectChar 'T' r1
  let r3 ← expectChar 'E' r2
  let r4 ← expectChar 'A' r3
  let r5 ← expectChar 'M' r4
  let r6 ← expectChar '_' r5
  let (u, r7) ← expectCls isUniverseCh r6
  let r8 ← expectChar ':' r7
  let (a, r9) ← expectCls isAuthCh r8
  let r10 ← expectChar ':' r9
  if !r10.isEmpty && r10.all isDigitCh then some (digitVal u, digitVal a, r10) else none

/-- Match of `reSteam3` on the whole string: returns the letter, the universe
digit and the account-id digit string (capture groups 1..3; the optional
fourth group `(:[0-9]+)?` must be well-formed when present but is never used
by `New`, so it is not returned). -/
def parseSteam3? (cs : List Char) : Option (Char × Nat × List Char) := do
  let r1 ← expectChar '[' cs
  let (l, r2) ← expectCls isAlphaCh r1
  let r3 ← expectChar ':' r2
  let (u, r4) ← expectCls isUniverseCh r3
  let r5 ← expectChar ':' r4
  let ds := r5.takeWhile isDigitCh
  match r5.dropWhile isDigitCh with
  | [']'] => if ds = [] then none else some (l, digitVal u, ds)
  | ':' :: r7 =>
    let ds2 := r7.takeWhile isDigitCh
    match r7.dropWhile isDigitCh with
    | [']'] => if ds = [] ∨ ds2 = [] then none else some (l, digitVal u, ds)
    | _ => none
  | _ => none

/-- `accountTypeFromLetter` of steamid.go restricted to single characters
(the steam3 capture group is always one character of `[a-zA-Z]`; the Go
function's `""` case is unreachable from `New`). -/
def accountTypeFromLetter (l : Char) : Nat :=
  if l = 'U' then AccountTypeIndividual
  else if l = 'M' then AccountTypeMultiSeat
  else if l = 'G' then AccountTypeGameServer
  else if l = 'A' then AccountTypeAnonGameServer
  else if l = 'P' then AccountTypePending
  else if l = 'C' then AccountTypeContentServer
  else if l = 'g' then AccountTypeClan
  else if l = 'T' then AccountTypeChat
  else if l = 'a' then AccountTypeAnonUser
  else AccountTypeInvalid

/-- The steam3 branch of `New` after both numeric captures parsed:
first switch sets `Instance` from the letter, second switch sets the
`ClanMask`/`Lobby` overrides or derives `AccountType` from the letter.
`acc` is the already truncated (`SID32`) account id. -/
def steam3Build (l : Char) (u : Nat) (acc : Nat) : SteamID :=
  let inst0 :=
    if l = 'U' then InstanceDesktop
    else if l = 'A' then InstanceAll
    else if l = 'C' then InstanceConsole
    else if l = 'W' then InstanceWeb
    else InstanceAll
  if l = 'c' then
    { AccountID := acc, Instance := inst0 ||| ClanMask
      AccountType := AccountTypeChat, Universe := u }
  else if l = 'L' then
    { AccountID := acc, Instance := inst0 ||| Lobby
      AccountType := AccountTypeInvalid, Universe := u }
  else
    { AccountID := acc, Instance := inst0
      AccountType := accountTypeFromLetter l, Universe := u }

/-- The numeric branch of `New`: `intVal` already parsed as `uint64`. -/
def newFromU64 (n : Nat) : SteamID :=
  if n < BaseSID then
    { AccountID := n % U32, Instance := InstanceDesktop
      AccountType := AccountTypeIndividual, Universe := UniversePublic }
  else
    { AccountID := (n &&& 0xFFFFFFFF), Instance := (n >>> 32) &&& 0xFFFFF
      AccountType := (n >>> 52) &&& 0xF, Universe := n >>> 56 }

/-- The branch structure of `New` after the two initial checks: the steam2
regex is tried first, then the steam3 regex, then the plain `uint64` path.
In each regex branch a failing `strconv.ParseUint` on the digit capture
(64-bit overflow) returns the untouched invalid identifier. -/
def newSidDispatch : Option (Nat × Nat × List Char) → Option (Char × Nat × List Char) →
    Option Nat → SteamID
  | some (u, auth, ds), _, _ =>
      if digitsVal ds < U64 then
        { AccountID := (((digitsVal ds * 2) % U64 + auth) % U64) % U32
          Instance := InstanceDesktop
          AccountType := AccountTypeIndividual
          Universe := if 0 < u then u else UniversePublic }
      else invalidSid
  | none, some (l, u, ds), _ =>
      if digitsVal ds < U64 then steam3Build l u (digitsVal ds % U32) else invalidSid
  | none, none, some n => newFromU64 n
  | none, none, none => invalidSid

/-- `New` of steamid.go on a string input (the value `"0"` and the empty
string short-circuit, then the dispatch above). -/
def newSidChars (cs : List Char) : SteamID :=
  if cs = ['0'] then invalidSid
  else if cs = [] then invalidSid
  else newSidDispatch (parseSteam2? cs) (parseSteam3? cs) (parseUint64? cs)

/-- `New` on a Lean string. -/
def New (s : String) : SteamID := newSidChars s.data

/-- `New` on an `int64` input: Go formats the value with `%d` and runs the
string path (a negative rendering can match neither regex nor `ParseUint`). -/
def NewInt64 (v : Int) : SteamID :=
  if v = 0 then invalidSid else newSidChars (intToChars v)

/-- `SteamID.Int64` of steamid.go, as the underlying `uint64` bit pattern:
`(uint64(Universe << 56)) | (uint64(AccountType) << 52) | (uint64(Instance) << 32) | uint64(AccountID)`.
Each shift wraps modulo `2 ^ 64` exactly as the Go conversions do, and the
`AccountID` field is read through its `uint32` type. -/
def Int64u (t : SteamID) : Nat :=
  (t.Universe <<< 56) % U64 ||| (t.AccountType <<< 52) % U64 |||
    (t.Instance <<< 32) % U64 ||| t.AccountID % U32

/-- The signed `int64` value returned by `SteamID.Int64`. -/
def Int64s (t : SteamID) : Int :=
  if Int64u t < 9223372036854775808 then (Int64u t : Int) else (Int64u t : Int) - (U64 : Int)

/-- `SteamID.String()`: `fmt.Sprintf("%d", t.Int64())`. -/
def sidStringChars (t : SteamID) : List Char := intToChars (Int64s t)

/-- `SteamID.Valid` of steamid.go. -/
def Valid (t : SteamID) : Bool :=
  if t.AccountType ≤ AccountTypeInvalid || t.AccountType > AccountTypeAnonUser then false
  else if t.Universe ≤ UniverseInvalid || t.Universe > UniverseDev then false
  else if t.AccountType = AccountTypeIndividual &&
      (t.AccountID = 0 || t.Instance > InstanceWeb) then false
  else if t.AccountType = AccountTypeClan &&
      (t.AccountID = 0 || t.Instance ≠ InstanceAll) then false
  else if t.AccountType = AccountTypeGameServer && t.AccountID = 0 then false
  else true

/-- `AccountType.Letter` of steamid.go (as a character list; `P2PSuperSeeder`
maps to the empty string). -/
def letterOf (t : Nat) : List Char :=
  if t = AccountTypeIndividual then ['U']
  else if t = AccountTypeMultiSeat then ['M']
  else if t = AccountTypeGameServer then ['G']
  else if t = AccountTypeAnonGameServer then ['A']
  else if t = AccountTypePending then ['P']
  else if t = AccountTypeContentServer then ['C']
  else if t = AccountTypeClan then ['g']
  else if t = AccountTypeChat then ['T']
  else if t = AccountTypeP2PSuperSeeder then []
  else if t = AccountTypeAnonUser then ['a']
  else ['I']

/-- `SteamID.Steam3` of steamid.go. -/
def Steam3Chars (t : SteamID) : List Char :=
  let ch :=
    if t.Instance &&& ClanMask > 0 then ['c']
    else if t.Instance &&& Lobby > 0 then ['L']
    else letterOf t.AccountType
  let doInstance :=
    t.AccountType = AccountTypeAnonGameServer || t.AccountType = AccountTypeMultiSeat ||
      (t.AccountType = AccountTypeIndividual && t.Instance ≠ InstanceDesktop)
  if !doInstance then
    ['['] ++ ch ++ [':'] ++ natToChars t.Universe ++ [':'] ++ natToChars t.AccountID ++ [']']
  else
    ['['] ++ ch ++ [':'] ++ natToChars t.Universe ++ [':'] ++ natToChars t.AccountID ++
      [':'] ++ natToChars t.Instance ++ [']']

/-- `SteamID.Steam` of steamid.go (the Steam2 renderer).  `AccountID` is a
`uint32`, so `math.Floor(float64(AccountID)/2)` is exact and equals integer
division by two. -/
def SteamChars (t : SteamID) (format : Bool) : List Char :=
  if t.AccountType ≠ AccountTypeIndividual then []
  else
    let uni := if !format && t.Universe = 1 then 0 else t.Universe
    ('S' :: 'T' :: 'E' :: 'A' :: 'M' :: '_' :: natToChars uni) ++
      [':'] ++ natToChars (t.AccountID &&& 1) ++ [':'] ++ natToChars (t.AccountID / 2)

/-! ### Specification-side rendering of Steam3 (for the refinement claim C6)

These definitions follow the wording of the specification ("the type letter
follows the fixed mapping ..., overridden to c when the ClanMask instance bit
is set and to L when the Lobby bit is set, ... appends a 4th colon-segment
containing the Instance exactly when ..."), to be compared with the
source-derived `Steam3Chars`. -/

/-- The specification's fixed type-letter table. -/
def specLetterTable (t : Nat) : List Char :=
  if t = 1 then ['U']
  else if t = 2 then ['M']
  else if t = 3 then ['G']
  else if t = 4 then ['A']
  else if t = 5 then ['P']
  else if t = 6 then ['C']
  else if t = 7 then ['g']
  else if t = 8 then ['T']
  else if t = 9 then []
  else if t = 10 then ['a']
  else ['I']

/-- The specification's emitted letter: the table entry, overridden to `c`
when the ClanMask bit is set in the instance, else to `L` when the Lobby bit
is set, regardless of the account type. -/
def specSteam3Letter (t : SteamID) : List Char :=
  if t.Instance &&& ClanMask > 0 then ['c']
  else if t.Instance &&& Lobby > 0 then ['L']
  else specLetterTable t.AccountType

/-- The specification's condition for the 4th colon-segment: AccountType is
AnonGameServer, MultiSeat, or Individual with Instance not equal to Desktop. -/
def specSteam3Appends (t : SteamID) : Bool :=
  t.AccountType = AccountTypeAnonGameServer || t.AccountType = AccountTypeMultiSeat ||
    (t.AccountType = AccountTypeIndividual && t.Instance ≠ InstanceDesktop)

/-- The specification's Steam3 rendering, with the optional instance segment
appended exactly under `specSteam3Appends`. -/
def specSteam3 (t : SteamID) : List Char :=
  ['['] ++ specSteam3Letter t ++ [':'] ++ natToChars t.Universe ++ [':'] ++
    natToChars t.AccountID ++
    (if specSteam3Appends t then [':'] ++ natToChars t.Instance else []) ++ [']']

/-! ### The free-text scanner `ParseString` (src/steamid/steamid.go)

`ParseString` runs three unanchored patterns over the body with
`FindAllStringSubmatch` (leftmost, non-overlapping, resuming after each
match), inserts the `Int64()` key of each decoded match into a `map[int64]bool`
(the Steam64 matches only after a `Valid()` check; the Steam2 and Steam3
matches unconditionally), and finally emits `New(k)` for every key `k` of the
map, in Go's unspecified map-iteration order.  The model below represents the
key set as the insertion-ordered list of distinct keys. -/

/-- One attempt of `STEAM_0:[01]:[0-9][0-9]{0,8}` at the current position
(greedy: the optional digit run takes as many digits as available, up to 8).
Returns the matched substring and the rest of the input after it. -/
def matchSID2At : List Char → Option (List Char × List Char)
  | 'S' :: 'T' :: 'E' :: 'A' :: 'M' :: '_' :: '0' :: ':' :: a :: ':' :: d :: rest =>
    if isAuthCh a && isDigitCh d then
      let ds := (rest.takeWhile isDigitCh).take 8
      some ('S' :: 'T' :: 'E' :: 'A' :: 'M' :: '_' :: '0' :: ':' :: a :: ':' :: d :: ds,
        rest.drop ds.length)
    else none
  | _ => none

/-- One attempt of `7656119\d{10}` at the current position. -/
def matchSID64At : List Char → Option (List Char × List Char)
  | '7' :: '6' :: '5' :: '6' :: '1' :: '1' :: '9' :: rest =>
    let ds := rest.take 10
    if ds.length = 10 && ds.all isDigitCh then
      some ('7' :: '6' :: '5' :: '6' :: '1' :: '1' :: '9' :: ds, rest.drop 10)
    else none
  | _ => none

/-- One attempt of `\[U:1:\d+]` at the current position (the digit run is
forced maximal since a digit can never match the closing bracket). -/
def matchSID3At : List Char → Option (List Char × List Char)
  | '[' :: 'U' :: ':' :: '1' :: ':' :: rest =>
    (match rest.takeWhile isDigitCh, rest.dropWhile isDigitCh with
      | d :: ds, ']' :: rest2 =>
        some ('[' :: 'U' :: ':' :: '1' :: ':' :: ((d :: ds) ++ [']']), rest2)
      | _, _ => none)
  | _ => none

/-- `FindAllString(.., -1)`: try the pattern at each position left to right,
resuming after the end of every match; fuelled by the input length (every
step consumes at least one character). -/
def findAllAux (m : List Char → Option (List Char × List Char)) :
    Nat → List Char → List (List Char)
  | 0, _ => []
  | fuel + 1, cs =>
    match m cs with
    | some (mt, rest) => mt :: findAllAux m fuel rest
    | none =>
      match cs with
      | [] => []
      | _ :: t => findAllAux m fuel t

def findAll (m : List Char → Option (List Char × List Char)) (cs : List Char) :
    List (List Char) := findAllAux m cs.length cs

/-- `found[key] = true`: insert a key, keeping the first occurrence only. -/
def insertKey (acc : List Nat) (k : Nat) : List Nat := if k ∈ acc then acc else acc ++ [k]

/-- The distinct keys of a list, in first-occurrence order. -/
def dedupKeys (ks : List Nat) : List Nat := ks.foldl insertKey []

/-- The key set built by `ParseString`: Steam2 matches, then the Steam64
matches that pass `Valid()`, then Steam3 matches, each decoded through `New`
and keyed by `Int64()`. -/
def parseStringKeys (body : String) : List Nat :=
  dedupKeys
    (((findAll matchSID2At body.data).map fun m => Int64u (newSidChars m)) ++
      (((findAll matchSID64At body.data).filter fun m => Valid (newSidChars m)).map
        fun m => Int64u (newSidChars m)) ++
      ((findAll matchSID3At body.data).map fun m => Int64u (newSidChars m)))

/-- The signed reinterpretation of a `uint64` bit pattern as an `int64`. -/
def int64OfU64 (v : Nat) : Int :=
  if v < 9223372036854775808 then (v : Int) else (v : Int) - (U64 : Int)

/-- The identifiers `ParseString` returns: `New(k)` for each key of the map.
Go iterates the map in unspecified order; this list fixes the insertion
order as a canonical enumeration of the returned set. -/
def parseStringIds (body : String) : List SteamID :=
  (parseStringKeys body).map fun k => NewInt64 (int64OfU64 k)

/-! ### The status parser (src/extra/status.go)

`ParseStatus` splits the input on newlines; a line containing ": " is treated
as a header row (`strings.SplitN(line, ": ", 2)`), matched by its trimmed key
against the fixed key set; any other line is matched against one of two
anchored player-row regular expressions.  Numeric sub-fields of a matched
player row are parsed strictly: a failing parse aborts the whole call with a
field-specific error and the zero-value `Status`.  The two row patterns are
interpreted by a small backtracking engine (`reMatch`) with Go/RE2
leftmost-first semantics: greedy `+` prefers the longest repetition, lazy
`+?` the shortest, and both patterns are anchored on both sides. -/

/-- The RE2 class `\s` = `[\t\n\f\r ]`. -/
def isSpaceCh (c : Char) : Bool :=
  c = ' ' || c = '\t' || c = '\n' || c = '\x0c' || c = '\r'

/-- The RE2 class `.` (any character except newline; the `s` flag is off). -/
def isDotCh (c : Char) : Bool := c ≠ '\n'

/-- One element of a compiled pattern: a literal, a single-character class,
a greedy `+`, a lazy `+?`, or a capture-group boundary. -/
inductive RTok where
  | lit : Char → RTok
  | one : (Char → Bool) → RTok
  | plusG : (Char → Bool) → RTok
  | plusL : (Char → Bool) → RTok
  | openG : Nat → RTok
  | closeG : Nat → RTok

/-- Backtracking matcher with leftmost-first priority, anchored at both ends
(all patterns used here carry `^` and `$`).  `opens` is the stack of open
capture groups (start suffixes); `caps` accumulates closed captures.  A
greedy `+` tries repetition lengths from longest to shortest, a lazy `+?`
from shortest to longest; the first overall success is returned, exactly the
match Go's regexp engine reports. -/
def reMatch : List RTok → List Char → List (Nat × List Char) →
    List (Nat × List Char) → Option (List (Nat × List Char))
  | [], cs, _, caps => if cs.isEmpty then some caps else none
  | .lit c :: ts, cs, opens, caps =>
    (match cs with
      | x :: rest => if x = c then reMatch ts rest opens caps else none
      | [] => none)
  | .one f :: ts, cs, opens, caps =>
    (match cs with
      | x :: rest => if f x then reMatch ts rest opens caps else none
      | [] => none)
  | .openG n :: ts, cs, opens, caps => reMatch ts cs ((n, cs) :: opens) caps
  | .closeG _ :: ts, cs, opens, caps =>
    (match opens with
      | (m, start) :: opens2 =>
        reMatch ts cs opens2 ((m, start.take (start.length - cs.length)) :: caps)
      | [] => none)
  | .plusG f :: ts, cs, opens, caps =>
    (List.range (cs.takeWhile f).length).reverse.findSome?
      (fun k => reMatch ts (cs.drop (k + 1)) opens caps)
  | .plusL f :: ts, cs, opens, caps =>
    (List.range (cs.takeWhile f).length).findSome?
      (fun k => reMatch ts (cs.drop (k + 1)) opens caps)

/-- `reStatusPlayer = ^#\s+(\d+)\s+"(.+?)"\s+(\[U:\d:\d+])\s+(\d+:\d+)\s+(\d+)\s+(\d+)\s+(.+?)$`. -/
def playerToks : List RTok :=
  [.lit '#', .plusG isSpaceCh, .openG 1, .plusG isDigitCh, .closeG 1, .plusG isSpaceCh,
   .lit '"', .openG 2, .plusL isDotCh, .closeG 2, .lit '"', .plusG isSpaceCh,
   .openG 3, .lit '[', .lit 'U', .lit ':', .one isDigitCh, .lit ':', .plusG isDigitCh,
   .lit ']', .closeG 3, .plusG isSpaceCh,
   .openG 4, .plusG isDigitCh, .lit ':', .plusG isDigitCh, .closeG 4, .plusG isSpaceCh,
   .openG 5, .plusG isDigitCh, .closeG 5, .plusG isSpaceCh,
   .openG 6, .plusG isDigitCh, .closeG 6, .plusG isSpaceCh,
   .openG 7, .plusL isDotCh, .closeG 7]

/-- `reStatusPlayerFull = ^#\s+(\d+)\s+"(.+?)"\s+(\[U:\d:\d+])\s+(.+?)\s+(\d+)\s+(\d+)\s+(.+?)\s(.+?):(.+?)$`. -/
def playerFullToks : List RTok :=
  [.lit '#', .plusG isSpaceCh, .openG 1, .plusG isDigitCh, .closeG 1, .plusG isSpaceCh,
   .lit '"', .openG 2, .plusL isDotCh, .closeG 2, .lit '"', .plusG isSpaceCh,
   .openG 3, .lit '[', .lit 'U', .lit ':', .one isDigitCh, .lit ':', .plusG isDigitCh,
   .lit ']', .closeG 3, .plusG isSpaceCh,
   .openG 4, .plusL isDotCh, .closeG 4, .plusG isSpaceCh,
   .openG 5, .plusG isDigitCh, .closeG 5, .plusG isSpaceCh,
   .openG 6, .plusG isDigitCh, .closeG 6, .plusG isSpaceCh,
   .openG 7, .plusL isDotCh, .closeG 7, .one isSpaceCh,
   .openG 8, .plusL isDotCh, .closeG 8, .lit ':', .openG 9, .plusL isDotCh, .closeG 9]

/-- `FindStringSubmatch` of the selected player pattern against a whole line. -/
def matchPlayer (full : Bool) (line : List Char) : Option (List (Nat × List Char)) :=
  reMatch (if full then playerFullToks else playerToks) line [] []

/-- Look up capture group `n` (each group is closed exactly once). -/
def capGet (caps : List (Nat × List Char)) (n : Nat) : List Char :=
  match caps.find? (fun p => p.1 == n) with
  | some p => p.2
  | none => []

/-- `strings.SplitN(line, ": ", 2)`: split at the first occurrence of ": ". -/
def splitColonSpace : List Char → Option (List Char × List Char)
  | [] => none
  | ':' :: ' ' :: rest => some ([], rest)
  | c :: rest =>
    (match splitColonSpace rest with
      | some (a, b) => some (c :: a, b)
      | none => none)

/-- `strings.TrimRight(s, " ")`. -/
def trimRightSpaces (cs : List Char) : List Char :=
  (cs.reverse.dropWhile (fun c => c = ' ')).reverse

/-- `strings.Split(s, sep)` for a one-character separator (never empty). -/
def splitChar (sep : Char) : List Char → List (List Char)
  | [] => [[]]
  | c :: rest =>
    let r := splitChar sep rest
    if c = sep then [] :: r
    else
      match r with
      | h :: t => (c :: h) :: t
      | [] => [[c]]

/-- Two's-complement wrap-around of Go `int64`/`int` arithmetic. -/
def wrap64 (x : Int) : Int :=
  (x + 9223372036854775808) % 18446744073709551616 - 9223372036854775808

/-- Go's `int(v)` conversion of a `uint64` value. -/
def intOfU64 (n : Nat) : Int := wrap64 (n : Int)

/-- A player row of the status table.  `ConnectedSeconds` is the number of
seconds handed to `time.ParseDuration`; the stored `time.Duration` is that
value times 10^9 nanoseconds.  `IPStr` keeps the matched address text. -/
structure Player where
  UserID : Int
  Name : List Char
  SID : SteamID
  ConnectedSeconds : Int
  Ping : Int
  Loss : Int
  State : List Char
  IPStr : List Char
  Port : Int
deriving DecidableEq, Repr

/-- The `Status` struct of status.go (strings as character lists). -/
structure Status where
  PlayersCount : Nat
  PlayersMax : Int
  ServerName : List Char
  Version : List Char
  Edicts : List Int
  Tags : List (List Char)
  Map : List Char
  Players : List Player
deriving DecidableEq, Repr

/-- The zero value `Status{}`. -/
def zeroStatus : Status :=
  { PlayersCount := 0, PlayersMax := 0, ServerName := [], Version := [], Edicts := [],
    Tags := [], Map := [], Players := [] }

/-- The seven strict-parse failure kinds of status.go. -/
inductive ErrKind where
  | userID | ping | loss | seconds | duration | ip | port
deriving DecidableEq, Repr

/-- Result of processing one line: continue with an updated `Status`, abort
with an error kind (Go returns `Status{}` with the error), or crash with a
runtime panic (index out of range). -/
inductive StepResult where
  | next : Status → StepResult
  | fail : ErrKind → StepResult
  | crash : StepResult
deriving DecidableEq, Repr

/-- Result of `parseMaxPlayers` / `parseEdits`, which index into a split
without a length check and can panic. -/
inductive HdrResult where
  | val : List Int → HdrResult
  | crash : HdrResult
deriving DecidableEq, Repr

/-- `parseMaxPlayers` of status.go: remove "(", split on single spaces, parse
element 4 (panicking when there are fewer than five elements), -1 on parse
failure. -/
def parseMaxPlayers (part : List Char) : HdrResult :=
  let ps := splitChar ' ' (part.filter (fun c => c ≠ '('))
  if 5 ≤ ps.length then
    match parseUint64? (ps.getD 4 []) with
    | some m => .val [intOfU64 m]
    | none => .val [-1]
  else .crash

/-- `parseEdits` of status.go: split on single spaces, parse element 0 (the
split is never empty); on success parse element 3 (panicking when there are
fewer than four elements); [-1, -1] on either parse failure. -/
def parseEdits (part : List Char) : HdrResult :=
  let ed := splitChar ' ' part
  match parseUint64? (ed.headD []) with
  | none => .val [-1, -1]
  | some l =>
    if 4 ≤ ed.length then
      match parseUint64? (ed.getD 3 []) with
      | none => .val [-1, -1]
      | some m => .val [intOfU64 l, intOfU64 m]
    else .crash

/-- The header keys recognized by the switch in `ParseStatus`. -/
def headerKeys : List (List Char) :=
  ["hostname".data, "version".data, "map".data, "tags".data, "players".data, "edicts".data]

/-- The header branch of `ParseStatus` (a line containing ": "). -/
def procHeader (s : Status) (key val : List Char) : StepResult :=
  if key = "hostname".data then .next { s with ServerName := val }
  else if key = "version".data then .next { s with Version := val }
  else if key = "map".data then .next { s with Map := (splitChar ' ' val).headD [] }
  else if key = "tags".data then .next { s with Tags := splitChar ',' val }
  else if key = "players".data then
    match parseMaxPlayers val with
    | .crash => .crash
    | .val ms =>
      let m := ms.headD 0
      .next (if 0 < m then { s with PlayersMax := m } else s)
  else if key = "edicts".data then
    match parseEdits val with
    | .crash => .crash
    | .val ed =>
      .next (if 0 < ed.headD 0 ∧ 0 < ed.getD 1 0 then { s with Edicts := ed } else s)
  else .next s

/-- Result of the connected-time loop. -/
inductive SecResult where
  | ok : Int → SecResult
  | fail : SecResult
  | crash : SecResult
deriving DecidableEq, Repr

/-- `[]int{1, 60, 3600}[i]` for `i < 3`. -/
def weightAt (i : Nat) : Int := if i = 0 then 1 else if i = 1 then 60 else 3600

/-- The loop over the reversed colon-separated duration segments:
`totalSec += int(v) * []int{1, 60, 3600}[i]`.  A segment that fails
`strconv.ParseUint` aborts with `ErrParseSeconds`; a fourth successfully
parsed segment indexes past the weight array and panics. -/
def sumSeconds : List (List Char) → Nat → Int → SecResult
  | [], _, acc => .ok acc
  | seg :: rest, i, acc =>
    (match parseUint64? seg with
      | none => .fail
      | some v =>
        if 3 ≤ i then .crash
        else sumSeconds rest (i + 1) (wrap64 (acc + wrap64 (wrap64 (intOfU64 v) * weightAt i))))

/-- `time.ParseDuration(fmt.Sprintf("%ds", totalSec))` succeeds exactly when
`totalSec` seconds fits in an `int64` of nanoseconds. -/
def durationOk (totalSec : Int) : Bool :=
  -9223372036 ≤ totalSec && totalSec ≤ 9223372036

/-! Model of `net.ParseIP` (Go standard library, Go ≥ 1.17 semantics): the
first '.' or ':' encountered selects dotted-quad IPv4 (strict: exactly four
nonempty decimal fields, each at most 255, no leading zeros) or IPv6 (groups
of at most four hex digits by value, one optional "::", optional embedded
trailing IPv4); a '%' zone makes `net.ParseIP` return nil. -/

/-- A single dotted-quad field as accepted by Go's IPv4 parser. -/
def goodV4Field (f : List Char) : Bool :=
  !f.isEmpty && f.all isDigitCh && digitsVal f ≤ 255 &&
    !(decide (1 < f.length) && f.headD ' ' = '0')

def parseIPv4 (cs : List Char) : Bool :=
  let fs := splitChar '.' cs
  fs.length = 4 && fs.all goodV4Field

def isHexCh (c : Char) : Bool :=
  (48 ≤ c.toNat && c.toNat ≤ 57) || (97 ≤ c.toNat && c.toNat ≤ 102) ||
    (65 ≤ c.toNat && c.toNat ≤ 70)

def hexDigitVal (c : Char) : Nat :=
  if c.toNat ≤ 57 then c.toNat - 48 else if 97 ≤ c.toNat then c.toNat - 87 else c.toNat - 55

def hexDigitsVal (cs : List Char) : Nat := cs.foldl (fun a c => 16 * a + hexDigitVal c) 0

/-- Post-loop acceptance check: the input must be exhausted, and an
ellipsis must be present exactly when fewer than 16 bytes were written. -/
def v6End (i : Nat) (ell : Option Nat) (s : List Char) : Bool :=
  s.isEmpty && (if i < 16 then ell.isSome else ell.isNone)

/-- The main loop of Go's IPv6 parser (netip.parseIPv6), fuelled by the
input length: read a hex group (1+ digits, value < 2^16), then either an
embedded IPv4 tail at an appropriate byte offset, the end of input, a single
colon before the next group, or one "::" (at most once overall). -/
def v6Loop : Nat → List Char → Nat → Option Nat → Bool
  | 0, _, _, _ => false
  | fuel + 1, s, i, ell =>
    if 16 ≤ i then v6End i ell s
    else
      let hs := s.takeWhile isHexCh
      let rest := s.dropWhile isHexCh
      if hs.isEmpty then false
      else if 65535 < hexDigitsVal hs then false
      else
        match rest with
        | '.' :: _ =>
          if ell.isNone && decide (i ≠ 12) then false
          else if 16 < i + 4 then false
          else if parseIPv4 s then v6End (i + 4) ell [] else false
        | [] => v6End (i + 2) ell []
        | ':' :: rest2 =>
          (match rest2 with
            | [] => false
            | ':' :: rest3 =>
              if ell.isSome then false
              else if rest3.isEmpty then v6End (i + 2) (some (i + 2)) []
              else v6Loop fuel rest3 (i + 2) (some (i + 2))
            | _ => v6Loop fuel rest2 (i + 2) ell)
        | _ => false

def parseIPv6 (cs : List Char) : Bool :=
  match cs with
  | ':' :: ':' :: rest =>
    if rest.isEmpty then true else v6Loop (rest.length + 1) rest 0 (some 0)
  | ':' :: _ => false
  | _ => v6Loop (cs.length + 1) cs 0 none

def goParseIPAux : List Char → List Char → Bool
  | _, [] => false
  | orig, c :: rest =>
    if c = '.' then parseIPv4 orig
    else if c = ':' then !orig.contains '%' && parseIPv6 orig
    else if c = '%' then false
    else goParseIPAux orig rest

/-- `net.ParseIP(s) != nil`. -/
def goParseIP (cs : List Char) : Bool := goParseIPAux cs cs

/-- The matched-player-row branch of `ParseStatus`: strict parsing of
user id, ping, loss, the duration segments, and (in full mode) port and IP,
in the order of the Go code. -/
def procPlayerCaps (full : Bool) (s : Status) (caps : List (Nat × List Char)) : StepResult :=
  match parseUint64? (capGet caps 1) with
  | none => .fail .userID
  | some uid =>
    match parseUint64? (capGet caps 5) with
    | none => .fail .ping
    | some ping =>
      match parseUint64? (capGet caps 6) with
      | none => .fail .loss
      | some loss =>
        match sumSeconds ((splitChar ':' (capGet caps 4)).reverse) 0 0 with
        | .fail => .fail .seconds
        | .crash => .crash
        | .ok totalSec =>
          if !durationOk totalSec then .fail .duration
          else
            let p0 : Player :=
              { UserID := intOfU64 uid, Name := capGet caps 2,
                SID := newSidChars (capGet caps 3), ConnectedSeconds := totalSec,
                Ping := intOfU64 ping, Loss := intOfU64 loss, State := capGet caps 7,
                IPStr := [], Port := 0 }
            if full then
              match parseUint64? (capGet caps 9) with
              | none => .fail .port
              | some port =>
                if goParseIP (capGet caps 8) then
                  .next { s with Players := s.Players ++
                    [{ p0 with IPStr := capGet caps 8, Port := intOfU64 port }] }
                else .fail .ip
            else .next { s with Players := s.Players ++ [p0] }

/-- Processing of one line of the status text. -/
def procLine (full : Bool) (s : Status) (line : List Char) : StepResult :=
  match splitColonSpace line with
  | some (p0, p1) => procHeader s (trimRightSpaces p0) p1
  | none =>
    match matchPlayer full line with
    | some caps =>
      if (¬full ∧ caps.length = 7) ∨ (full ∧ caps.length = 9) then procPlayerCaps full s caps
      else .next s
    | none => .next s

/-- The outcome of `ParseStatus`: a returned `(Status, error)` pair, or a
runtime panic. -/
inductive POutcome where
  | ret : Status → Option ErrKind → POutcome
  | crash : POutcome
deriving DecidableEq, Repr

def parseStatusLines (full : Bool) : Status → List (List Char) → POutcome
  | s, [] => .ret { s with PlayersCount := s.Players.length } none
  | s, l :: ls =>
    (match procLine full s l with
      | .next s2 => parseStatusLines full s2 ls
      | .fail k => .ret zeroStatus (some k)
      | .crash => .crash)

/-- `ParseStatus` of status.go. -/
def ParseStatus (text : String) (full : Bool) : POutcome :=
  parseStatusLines full zeroStatus (splitChar '\n' text.data)

/-! ### Lemmas: decimal rendering and parsing -/

theorem isDigitCh_decDigit {d : Nat} (h : d < 10) : isDigitCh (decDigit d) = true := by
  interval_cases d <;> decide

theorem digitVal_decDigit {d : Nat} (h : d < 10) : digitVal (decDigit d) = d := by
  interval_cases d <;> decide

theorem natToCharsAux_spec (fuel : Nat) :
    ∀ n acc, n < fuel → natToCharsAux fuel n acc = natToChars n ++ acc := by
  induction fuel using Nat.strong_induction_on with
  | _ fuel ih =>
  intro n acc hn
  cases fuel with
  | zero => omega
  | succ f =>
    by_cases h10 : n < 10
    · simp [natToCharsAux, natToChars, h10]
    · have hd : n / 10 < f := by omega
      have e1 : natToCharsAux (f + 1) n acc =
          natToCharsAux f (n / 10) (decDigit (n % 10) :: acc) := by
        simp [natToCharsAux, h10]
      have e3 : natToChars n = natToCharsAux n (n / 10) [decDigit (n % 10)] := by
        simp [natToChars, natToCharsAux, h10]
      have e2 : natToChars n = natToChars (n / 10) ++ [decDigit (n % 10)] := by
        rw [e3, ih n (by omega) (n / 10) [decDigit (n % 10)] (by omega)]
      rw [e1, ih f (by omega) (n / 10) _ hd, e2, List.append_assoc]
      rfl

theorem natToChars_unfold {n : Nat} (h10 : ¬n < 10) :
    natToChars n = natToChars (n / 10) ++ [decDigit (n % 10)] := by
  have e3 : natToChars n = natToCharsAux n (n / 10) [decDigit (n % 10)] := by
    simp [natToChars, natToCharsAux, h10]
  rw [e3, natToCharsAux_spec n (n / 10) [decDigit (n % 10)] (by omega)]

theorem natToChars_small {n : Nat} (h10 : n < 10) : natToChars n = [decDigit n] := by
  simp [natToChars, natToCharsAux, h10]

theorem natToChars_all_digits (n : Nat) : ∀ c ∈ natToChars n, isDigitCh c = true := by
  induction n using Nat.strong_induction_on with
  | _ n ih =>
  by_cases h10 : n < 10
  · rw [natToChars_small h10]
    intro c hc
    rw [List.mem_singleton] at hc
    subst hc
    exact isDigitCh_decDigit h10
  · rw [natToChars_unfold h10]
    intro c hc
    rcases List.mem_append.1 hc with h | h
    · exact ih (n / 10) (by omega) c h
    · rw [List.mem_singleton] at h
      subst h
      exact isDigitCh_decDigit (by omega)

theorem natToChars_ne_nil (n : Nat) : natToChars n ≠ [] := by
  by_cases h10 : n < 10
  · rw [natToChars_small h10]; simp
  · rw [natToChars_unfold h10]; simp

theorem digitsVal_append_digit (a : List Char) (c : Char) :
    digitsVal (a ++ [c]) = 10 * digitsVal a + digitVal c := by
  simp [digitsVal, List.foldl_append]

theorem digitsVal_natToChars (n : Nat) : digitsVal (natToChars n) = n := by
  induction n using Nat.strong_induction_on with
  | _ n ih =>
  by_cases h10 : n < 10
  · rw [natToChars_small h10]
    simp [digitsVal, digitVal_decDigit h10]
  · rw [natToChars_unfold h10, digitsVal_append_digit, ih (n / 10) (by omega),
      digitVal_decDigit (by omega : n % 10 < 10)]
    omega

theorem parseSteam2?_none_of_head_digit {c : Char} (t : List Char)
    (h : isDigitCh c = true) : parseSteam2? (c :: t) = none := by
  have hcs : c ≠ 'S' := by
    intro he
    subst he
    exact absurd h (by decide)
  simp [parseSteam2?, expectChar, hcs]

theorem parseSteam3?_none_of_head_digit {c : Char} (t : List Char)
    (h : isDigitCh c = true) : parseSteam3? (c :: t) = none := by
  have hcs : c ≠ '[' := by
    intro he
    subst he
    exact absurd h (by decide)
  simp [parseSteam3?, expectChar, hcs]

theorem parseUint64?_natToChars {n : Nat} (h : n < U64) :
    parseUint64? (natToChars n) = some n := by
  have h1 : (natToChars n).isEmpty = false := by
    cases he : natToChars n with
    | nil => exact absurd he (natToChars_ne_nil n)
    | cons c t => rfl
  have h2 : (natToChars n).all isDigitCh = true :=
    List.all_eq_true.2 (fun c hc => natToChars_all_digits n c hc)
  simp [parseUint64?, h1, h2, digitsVal_natToChars, h]

theorem natToChars_eq_zero_singleton {n : Nat} (h : natToChars n = ['0']) : n = 0 := by
  have := digitsVal_natToChars n
  rw [h] at this
  simpa [digitsVal, digitVal] using this.symm

/-- On a decimal rendering, `New` always reaches the plain-integer branch:
the string is nonempty all-digits, so neither anchored regex can match. -/
theorem newSidChars_natToChars {n : Nat} (hn : n ≠ 0) (h64 : n < U64) :
    newSidChars (natToChars n) = newFromU64 n := by
  have hne : natToChars n ≠ [] := natToChars_ne_nil n
  have hz : natToChars n ≠ ['0'] := fun h => hn (natToChars_eq_zero_singleton h)
  obtain ⟨c, t, hct⟩ := List.exists_cons_of_ne_nil hne
  have hc : isDigitCh c = true := by
    have := natToChars_all_digits n c
    rw [hct] at this
    exact this (by simp)
  rw [newSidChars, if_neg hz, if_neg hne, hct,
    parseSteam2?_none_of_head_digit t hc, parseSteam3?_none_of_head_digit t hc, ← hct,
    parseUint64?_natToChars h64]
  simp [newSidDispatch]

/-! ### Lemmas: `Valid` and packing -/

theorem valid_bounds {t : SteamID} (h : Valid t = true) :
    1 ≤ t.AccountType ∧ t.AccountType ≤ 10 ∧ 1 ≤ t.Universe ∧ t.Universe ≤ 4 ∧
      (t.AccountType = 1 → t.AccountID ≠ 0 ∧ t.Instance ≤ 3) := by
  rw [Valid] at h
  split_ifs at h with h1 h2 h3 h4 h5
  simp only [AccountTypeInvalid, AccountTypeAnonUser, UniverseInvalid, UniverseDev,
    AccountTypeIndividual, InstanceWeb, decide_eq_true_eq, Bool.or_eq_true,
    Bool.and_eq_true, not_or] at h1 h2 h3
  exact ⟨by omega, by omega, by omega, by omega, fun hi => by omega⟩

theorem int64u_eq {t : SteamID} (hA : t.AccountID < 2 ^ 32) (hI : t.Instance < 2 ^ 20)
    (hT : t.AccountType < 2 ^ 4) (hU : t.Universe < 2 ^ 8) :
    Int64u t = t.Universe * 2 ^ 56 + t.AccountType * 2 ^ 52 + t.Instance * 2 ^ 32 +
      t.AccountID := by
  have sU : (t.Universe <<< 56) % U64 = 2 ^ 56 * t.Universe := by
    rw [Nat.shiftLeft_eq, Nat.mod_eq_of_lt (by simp only [U64]; nlinarith), Nat.mul_comm]
  have sT : (t.AccountType <<< 52) % U64 = 2 ^ 52 * t.AccountType := by
    rw [Nat.shiftLeft_eq, Nat.mod_eq_of_lt (by simp only [U64]; nlinarith), Nat.mul_comm]
  have sI : (t.Instance <<< 32) % U64 = 2 ^ 32 * t.Instance := by
    rw [Nat.shiftLeft_eq, Nat.mod_eq_of_lt (by simp only [U64]; nlinarith), Nat.mul_comm]
  have sA : t.AccountID % U32 = t.AccountID := Nat.mod_eq_of_lt (by simpa [U32] using hA)
  rw [Int64u, sU, sT, sI, sA]
  have h1 : 2 ^ 32 * t.Instance ||| t.AccountID = 2 ^ 32 * t.Instance + t.AccountID :=
    (Nat.mul_add_lt_is_or hA _).symm
  have b1 : 2 ^ 32 * t.Instance + t.AccountID < 2 ^ 52 := by nlinarith
  have h2 : 2 ^ 52 * t.AccountType ||| (2 ^ 32 * t.Instance + t.AccountID) =
      2 ^ 52 * t.AccountType + (2 ^ 32 * t.Instance + t.AccountID) :=
    (Nat.mul_add_lt_is_or b1 _).symm
  have b2 : 2 ^ 52 * t.AccountType + (2 ^ 32 * t.Instance + t.AccountID) < 2 ^ 56 := by
    nlinarith
  have h3 : 2 ^ 56 * t.Universe |||
        (2 ^ 52 * t.AccountType + (2 ^ 32 * t.Instance + t.AccountID)) =
      2 ^ 56 * t.Universe + (2 ^ 52 * t.AccountType + (2 ^ 32 * t.Instance + t.AccountID)) :=
    (Nat.mul_add_lt_is_or b2 _).symm
  rw [Nat.lor_assoc, Nat.lor_assoc, h1, h2, h3]
  ring

theorem newFromU64_bare {n : Nat} (h : n < BaseSID) :
    newFromU64 n = { AccountID := n % U32, Instance := InstanceDesktop
                     AccountType := AccountTypeIndividual, Universe := UniversePublic } := by
  rw [newFromU64, if_pos h]

theorem newFromU64_unpack {n : Nat} (h : BaseSID ≤ n) :
    newFromU64 n = { AccountID := n % 2 ^ 32, Instance := n / 2 ^ 32 % 2 ^ 20
                     AccountType := n / 2 ^ 52 % 2 ^ 4, Universe := n / 2 ^ 56 } := by
  rw [newFromU64, if_neg (by omega)]
  have m32 : n &&& 0xFFFFFFFF = n % 2 ^ 32 := by
    have := Nat.and_pow_two_sub_one_eq_mod n 32
    norm_num at this ⊢
    exact this
  have m20 : (n >>> 32) &&& 0xFFFFF = n / 2 ^ 32 % 2 ^ 20 := by
    rw [Nat.shiftRight_eq_div_pow]
    have := Nat.and_pow_two_sub_one_eq_mod (n / 2 ^ 32) 20
    norm_num at this ⊢
    exact this
  have m4 : (n >>> 52) &&& 0xF = n / 2 ^ 52 % 2 ^ 4 := by
    rw [Nat.shiftRight_eq_div_pow]
    have := Nat.and_pow_two_sub_one_eq_mod (n / 2 ^ 52) 4
    norm_num at this ⊢
    exact this
  have m56 : n >>> 56 = n / 2 ^ 56 := Nat.shiftRight_eq_div_pow n 56
  rw [m32, m20, m4, m56]

/-! ### Lemmas: parsing back a rendered identifier -/

theorem takeWhile_append_all {α : Type} {p : α → Bool} :
    ∀ {xs : List α}, (∀ x ∈ xs, p x = true) → ∀ {y : α} {ys : List α}, p y = false →
      (xs ++ y :: ys).takeWhile p = xs := by
  intro xs
  induction xs with
  | nil => intro _ y ys hy; simp [List.takeWhile_cons, hy]
  | cons a l ihl =>
    intro h y ys hy
    have ha : p a = true := h a (by simp)
    simp only [List.cons_append, List.takeWhile_cons, ha, if_true]
    rw [ihl (fun x hx => h x (by simp [hx])) hy]

theorem dropWhile_append_all {α : Type} {p : α → Bool} :
    ∀ {xs : List α}, (∀ x ∈ xs, p x = true) → ∀ {y : α} {ys : List α}, p y = false →
      (xs ++ y :: ys).dropWhile p = y :: ys := by
  intro xs
  induction xs with
  | nil => intro _ y ys hy; simp [List.dropWhile_cons, hy]
  | cons a l ihl =>
    intro h y ys hy
    have ha : p a = true := h a (by simp)
    simp only [List.cons_append, List.dropWhile_cons, ha, if_true]
    exact ihl (fun x hx => h x (by simp [hx])) hy

theorem decDigit_le5 {d : Nat} (h : d ≤ 5) : isUniverseCh (decDigit d) = true := by
  interval_cases d <;> decide

theorem decDigit_le1 {d : Nat} (h : d ≤ 1) : isAuthCh (decDigit d) = true := by
  interval_cases d <;> decide

theorem rbrack_not_digit : isDigitCh ']' = false := by decide

/-- Parsing the canonical three-segment steam3 rendering. -/
theorem parseSteam3?_render {l : Char} {u a : Nat} (hl : isAlphaCh l = true) (hu : u ≤ 5) :
    parseSteam3? ('[' :: l :: ':' :: decDigit u :: ':' :: (natToChars a ++ [']'])) =
      some (l, u, natToChars a) := by
  have htw : (natToChars a ++ [']']).takeWhile isDigitCh = natToChars a :=
    takeWhile_append_all (natToChars_all_digits a) rbrack_not_digit
  have hdw : (natToChars a ++ [']']).dropWhile isDigitCh = [']'] :=
    dropWhile_append_all (natToChars_all_digits a) rbrack_not_digit
  obtain ⟨c, t, hct⟩ := List.exists_cons_of_ne_nil (natToChars_ne_nil a)
  have hc : isDigitCh c = true := by
    have := natToChars_all_digits a c
    rw [hct] at this
    exact this (by simp)
  have htall : ∀ x ∈ t, isDigitCh x = true := by
    intro x hx
    have := natToChars_all_digits a x
    rw [hct] at this
    exact this (by simp [hx])
  have htw2 : (t ++ [']']).takeWhile isDigitCh = t :=
    takeWhile_append_all htall rbrack_not_digit
  have hdw2 : (t ++ [']']).dropWhile isDigitCh = [']'] :=
    dropWhile_append_all htall rbrack_not_digit
  rw [hct] at htw hdw ⊢
  simp [parseSteam3?, expectChar, expectCls, hl, decDigit_le5 hu,
    htw, hdw, htw2, hdw2, hc, digitVal_decDigit (by omega : u < 10)]

/-- Parsing the canonical steam2 rendering. -/
theorem parseSteam2?_render {u a h : Nat} (hu : u ≤ 5) (ha : a ≤ 1) :
    parseSteam2? ('S' :: 'T' :: 'E' :: 'A' :: 'M' :: '_' :: decDigit u :: ':' ::
        decDigit a :: ':' :: natToChars h) = some (u, a, natToChars h) := by
  obtain ⟨c, t, hct⟩ := List.exists_cons_of_ne_nil (natToChars_ne_nil h)
  have hc : isDigitCh c = true := by
    have := natToChars_all_digits h c
    rw [hct] at this
    exact this (by simp)
  have hall : ∀ x ∈ c :: t, isDigitCh x = true := by
    intro x hx
    have := natToChars_all_digits h x
    rw [hct] at this
    exact this hx
  have htall : ∀ x ∈ t, isDigitCh x = true := fun x hx => hall x (by simp [hx])
  rw [hct]
  simp [parseSteam2?, expectChar, expectCls, decDigit_le5 hu,
    decDigit_le1 ha, hc, digitVal_decDigit (by omega : u < 10),
    digitVal_decDigit (by omega : a < 10)]
  exact htall

/-- Round trip through the Steam3 rendering for a valid Individual identifier
with the Desktop instance. -/
theorem newSid_steam3_desktop {t : SteamID} (hv : Valid t = true)
    (ht : t.AccountType = AccountTypeIndividual) (hi : t.Instance = InstanceDesktop)
    (hA : t.AccountID < 2 ^ 32) : newSidChars (Steam3Chars t) = t := by
  obtain ⟨A, I, T, U⟩ := t
  obtain ⟨-, -, hU1, hU4, hind⟩ := valid_bounds hv
  simp only [AccountTypeIndividual, InstanceDesktop] at ht hi
  simp only at hA hind hU1 hU4
  subst ht hi
  have hrender : Steam3Chars ⟨A, 1, 1, U⟩ =
      '[' :: 'U' :: ':' :: decDigit U :: ':' :: (natToChars A ++ [']']) := by
    simp [Steam3Chars, ClanMask, Lobby, InstanceMask, letterOf, AccountTypeIndividual,
      AccountTypeAnonGameServer, AccountTypeMultiSeat, InstanceDesktop,
      natToChars_small (show U < 10 by omega)]
  rw [hrender, newSidChars, if_neg (by simp), if_neg (by simp)]
  have h2 : parseSteam2? ('[' :: 'U' :: ':' :: decDigit U :: ':' ::
      (natToChars A ++ [']'])) = none := by
    simp [parseSteam2?, expectChar]
  rw [h2, parseSteam3?_render (by decide) (by omega)]
  simp only [newSidDispatch, digitsVal_natToChars]
  rw [if_pos (show A < U64 by simp only [U64]; omega),
    Nat.mod_eq_of_lt (show A < U32 by simp only [U32]; omega)]
  simp [steam3Build, accountTypeFromLetter, AccountTypeIndividual, InstanceDesktop]

/-- Round trip through the Steam2 rendering (with `format = false`) for a
valid Individual identifier with the Desktop instance. -/
theorem newSid_steam2_desktop {t : SteamID} (hv : Valid t = true)
    (ht : t.AccountType = AccountTypeIndividual) (hi : t.Instance = InstanceDesktop)
    (hA : t.AccountID < 2 ^ 32) : newSidChars (SteamChars t false) = t := by
  obtain ⟨A, I, T, U⟩ := t
  obtain ⟨-, -, hU1, hU4, hind⟩ := valid_bounds hv
  simp only [AccountTypeIndividual, InstanceDesktop] at ht hi
  simp only at hA hind hU1 hU4
  subst ht hi
  have hmod2 : A &&& 1 = A % 2 := Nat.and_one_is_mod A
  have hrender : SteamChars ⟨A, 1, 1, U⟩ false =
      'S' :: 'T' :: 'E' :: 'A' :: 'M' :: '_' :: decDigit (if U = 1 then 0 else U) :: ':' ::
        decDigit (A % 2) :: ':' :: natToChars (A / 2) := by
    by_cases hU : U = 1 <;>
      simp [SteamChars, AccountTypeIndividual, hmod2, hU,
        natToChars_small (show U < 10 by omega), natToChars_small (show (0:Nat) < 10 by omega),
        natToChars_small (show A % 2 < 10 by omega)]
  rw [hrender, newSidChars, if_neg (by simp), if_neg (by simp),
    parseSteam2?_render (by split_ifs <;> omega) (by omega)]
  simp only [newSidDispatch, digitsVal_natToChars]
  rw [if_pos (show A / 2 < U64 by simp only [U64]; omega)]
  simp only [SteamID.mk.injEq]
  refine ⟨by simp only [U64, U32]; omega, rfl, rfl, ?_⟩
  by_cases hU : U = 1
  · simp [hU, UniversePublic]
  · simp only [hU, if_false]
    rw [if_pos (by omega)]

/-- Round trip through the Steam64 decimal string for a valid Individual
identifier with the Desktop instance. -/
theorem newSid_string_desktop {t : SteamID} (hv : Valid t = true)
    (ht : t.AccountType = AccountTypeIndividual) (hi : t.Instance = InstanceDesktop)
    (hA : t.AccountID < 2 ^ 32) : newSidChars (sidStringChars t) = t := by
  obtain ⟨A, I, T, U⟩ := t
  obtain ⟨-, -, hU1, hU4, hind⟩ := valid_bounds hv
  simp only [AccountTypeIndividual, InstanceDesktop] at ht hi
  simp only at hA hind hU1 hU4
  subst ht hi
  have hpack : Int64u ⟨A, 1, 1, U⟩ = U * 2 ^ 56 + 2 ^ 52 + 2 ^ 32 + A := by
    rw [int64u_eq (by simpa using hA) (by norm_num) (by norm_num)
      (by show U < 2 ^ 8; omega)]
    show U * 2 ^ 56 + 1 * 2 ^ 52 + 1 * 2 ^ 32 + A = U * 2 ^ 56 + 2 ^ 52 + 2 ^ 32 + A
    ring
  have hlt63 : Int64u ⟨A, 1, 1, U⟩ < 9223372036854775808 := by rw [hpack]; omega
  have hstr : sidStringChars ⟨A, 1, 1, U⟩ = natToChars (Int64u ⟨A, 1, 1, U⟩) := by
    rw [sidStringChars, Int64s, if_pos hlt63, intToChars, if_neg (not_lt.mpr (Int.natCast_nonneg _))]
    simp
  rw [hstr, newSidChars_natToChars (by rw [hpack]; omega)
    (by rw [hpack]; simp only [U64]; omega)]
  rw [newFromU64_unpack (by rw [hpack]; simp only [BaseSID]; omega), hpack]
  simp only [SteamID.mk.injEq]
  refine ⟨by omega, by omega, by omega, by omega⟩

/-! ### Inversion lemmas for the parsers -/

theorem expectChar_inv {c : Char} {cs rest : List Char} (h : expectChar c cs = some rest) :
    cs = c :: rest := by
  cases cs with
  | nil => exact absurd h (by simp [expectChar])
  | cons x t =>
    by_cases hx : x = c
    · subst hx
      simp [expectChar] at h
      rw [h]
    · simp [expectChar, hx] at h

theorem expectCls_inv {f : Char → Bool} {cs : List Char} {x : Char} {rest : List Char}
    (h : expectCls f cs = some (x, rest)) : f x = true ∧ cs = x :: rest := by
  cases cs with
  | nil => exact absurd h (by simp [expectCls])
  | cons y t =>
    by_cases hy : f y = true
    · simp [expectCls, hy] at h
      obtain ⟨h1, h2⟩ := h
      subst h1
      subst h2
      exact ⟨hy, rfl⟩
    · simp [expectCls, hy] at h

theorem parseUint64?_sound {cs : List Char} {n : Nat} (h : parseUint64? cs = some n) :
    cs ≠ [] ∧ (∀ c ∈ cs, isDigitCh c = true) ∧ digitsVal cs = n ∧ n < U64 := by
  rw [parseUint64?] at h
  split_ifs at h with hc
  · simp only [Bool.and_eq_true, Bool.not_eq_true', List.isEmpty_eq_false,
      List.all_eq_true, decide_eq_true_eq] at hc
    injection h with h
    exact ⟨hc.1.1, hc.1.2, h, h ▸ hc.2⟩

theorem parseSteam2?_sound {cs : List Char} {u a : Nat} {ds : List Char}
    (h : parseSteam2? cs = some (u, a, ds)) :
    u ≤ 5 ∧ a ≤ 1 ∧ ∃ t, cs = 'S' :: t := by
  simp only [parseSteam2?, Option.bind_eq_bind, Option.bind_eq_some] at h
  obtain ⟨r1, h1, r2, h2, r3, h3, r4, h4, r5, h5, r6, h6, p7, h7, hrest⟩ := h
  obtain ⟨uc, r7⟩ := p7
  simp only at hrest
  obtain ⟨r8, h8, p9, h9, hrest2⟩ := hrest
  obtain ⟨ac, r9⟩ := p9
  simp only at hrest2
  obtain ⟨r10, h10, hfin⟩ := hrest2
  have hu := (expectCls_inv h7).1
  have ha := (expectCls_inv h9).1
  split_ifs at hfin with hcond
  · injection hfin with hfin
    obtain ⟨e1, e2, e3⟩ : digitVal uc = u ∧ digitVal ac = a ∧ r10 = ds := by
      simpa using hfin
    refine ⟨?_, ?_, r1, expectChar_inv h1⟩
    · rw [isUniverseCh, Bool.and_eq_true, decide_eq_true_eq, decide_eq_true_eq] at hu
      rw [← e1, digitVal]
      omega
    · rw [isAuthCh, Bool.or_eq_true, decide_eq_true_eq, decide_eq_true_eq] at ha
      rw [← e2]
      rcases ha with h' | h' <;> subst h' <;> decide

theorem parseSteam3?_brackets {cs : List Char} {r : Char × Nat × List Char}
    (h : parseSteam3? cs = some r) :
    cs.head? = some '[' ∧ cs.getLast? = some ']' := by
  simp only [parseSteam3?, Option.bind_eq_bind, Option.bind_eq_some] at h
  obtain ⟨r1, h1, p2, h2, hrest⟩ := h
  obtain ⟨l, r2⟩ := p2
  simp only at hrest
  obtain ⟨r3, h3, p4, h4, hrest2⟩ := hrest
  obtain ⟨uc, r4⟩ := p4
  simp only at hrest2
  obtain ⟨r5, h5, hfin⟩ := hrest2
  have hcs : cs = '[' :: r1 := expectChar_inv h1
  have hr1 : r1 = l :: r2 := (expectCls_inv h2).2
  have hr2 : r2 = ':' :: r3 := expectChar_inv h3
  have hr3 : r3 = uc :: r4 := (expectCls_inv h4).2
  have hr4 : r4 = ':' :: r5 := expectChar_inv h5
  refine ⟨by rw [hcs]; rfl, ?_⟩
  have hsplit := @List.takeWhile_append_dropWhile Char isDigitCh r5
  have hlast : ∃ ys, r5 = ys ++ [']'] := by
    split at hfin
    · rename_i heq
      refine ⟨r5.takeWhile isDigitCh, ?_⟩
      conv_lhs => rw [← hsplit]
      rw [heq]
    · rename_i r7 heq
      split at hfin
      · rename_i heq2
        have hsplit2 := @List.takeWhile_append_dropWhile Char isDigitCh r7
        have e7 : r7 = r7.takeWhile isDigitCh ++ [']'] := by
          conv_lhs => rw [← hsplit2]
          rw [heq2]
        have e5 : r5 = r5.takeWhile isDigitCh ++ ':' :: r7 := by
          conv_lhs => rw [← hsplit]
          rw [heq]
        refine ⟨r5.takeWhile isDigitCh ++ ':' :: r7.takeWhile isDigitCh, ?_⟩
        conv_lhs => rw [e5, e7]
        simp
      · exact absurd hfin (by simp)
    · exact absurd hfin (by simp)
  obtain ⟨ys, hys⟩ := hlast
  rw [hcs, hr1, hr2, hr3, hr4, hys,
    show '[' :: l :: ':' :: uc :: ':' :: (ys ++ [']']) =
      ('[' :: l :: ':' :: uc :: ':' :: ys) ++ [']'] from by simp,
    List.getLast?_concat]
/-! ### Helper: decimal inputs reach the plain-integer branch -/

theorem newSid_parseUint64 {s : String} {n : Nat} (hp : parseUint64? s.data = some n)
    (hn : n ≠ 0) : New s = newFromU64 n := by
  obtain ⟨hne, hall, hdv, hlt⟩ := parseUint64?_sound hp
  obtain ⟨c, t, hct⟩ := List.exists_cons_of_ne_nil hne
  have hc : isDigitCh c = true := hall c (by rw [hct]; simp)
  have hz : s.data ≠ ['0'] := by
    intro h0
    rw [h0] at hdv
    simp [digitsVal, digitVal] at hdv
    exact hn hdv.symm
  rw [New, newSidChars, if_neg hz, if_neg hne, hct, parseSteam2?_none_of_head_digit t hc,
    parseSteam3?_none_of_head_digit t hc, ← hct, hp]
  simp [newSidDispatch]

/-! ### Claim theorems -/

/-- C1 (amended): for every valid Individual-account identifier with the
Desktop instance (and a well-formed `uint32` account id), re-parsing each
rendered form — Steam3, Steam2 with `format = false`, and the Steam64 decimal
string — recovers the identifier exactly, with four-field equality. -/
theorem c1_roundtrip_individual_desktop (t : SteamID) (hv : Valid t = true)
    (ht : t.AccountType = AccountTypeIndividual) (hi : t.Instance = InstanceDesktop)
    (hA : t.AccountID < 2 ^ 32) :
    New (String.mk (Steam3Chars t)) = t ∧ New (String.mk (SteamChars t false)) = t ∧
      New (String.mk (sidStringChars t)) = t :=
  ⟨newSid_steam3_desktop hv ht hi hA, newSid_steam2_desktop hv ht hi hA,
    newSid_string_desktop hv ht hi hA⟩

/-- Witness for C1 at the identifier of Steam64 76561198132612090. -/
theorem c1_roundtrip_witness :
    Valid ⟨172346362, 1, 1, 1⟩ = true ∧
      New (String.mk (Steam3Chars ⟨172346362, 1, 1, 1⟩)) = ⟨172346362, 1, 1, 1⟩ :=
  ⟨by decide, (c1_roundtrip_individual_desktop ⟨172346362, 1, 1, 1⟩ (by decide) rfl rfl
    (by decide)).1⟩

/-- Counterexample to C1 as stated: the identifier with AccountID 1 and
Instance All is a valid Individual identifier, yet neither its Steam3 form
(which carries a 4th instance segment that `New` ignores) nor its Steam64
string (which falls below `BaseSID` and is re-parsed as a bare account id
with the Desktop instance) re-parses to it. -/
theorem c1_roundtrip_counterexample :
    Valid ⟨1, 0, 1, 1⟩ = true ∧
      (⟨1, 0, 1, 1⟩ : SteamID).AccountType = AccountTypeIndividual ∧
      New (String.mk (Steam3Chars ⟨1, 0, 1, 1⟩)) ≠ ⟨1, 0, 1, 1⟩ ∧
      New (String.mk (sidStringChars ⟨1, 0, 1, 1⟩)) ≠ ⟨1, 0, 1, 1⟩ := by
  refine ⟨by decide, rfl, by decide, by decide⟩

/-- C2 (amended): packing four in-range field values with `Int64` and feeding
the resulting `int64` back to `New` returns the original fields unchanged,
provided the packed value is at least `BaseSID` (otherwise `New` takes the
bare-AccountID branch) and below `2 ^ 63` (otherwise the `int64` is negative
and fails to parse). -/
theorem c2_pack_unpack_high (U T I A : Nat) (hU : U < 2 ^ 8) (hT : T < 2 ^ 4)
    (hI : I < 2 ^ 20) (hA : A < 2 ^ 32)
    (hge : BaseSID ≤ Int64u ⟨A, I, T, U⟩) (hlt : Int64u ⟨A, I, T, U⟩ < 2 ^ 63) :
    NewInt64 (Int64s ⟨A, I, T, U⟩) = ⟨A, I, T, U⟩ := by
  have hpack : Int64u ⟨A, I, T, U⟩ = U * 2 ^ 56 + T * 2 ^ 52 + I * 2 ^ 32 + A := by
    have := @int64u_eq ⟨A, I, T, U⟩ (by simpa using hA) (by simpa using hI)
      (by simpa using hT) (by simpa using hU)
    simpa using this
  have hnz : Int64u ⟨A, I, T, U⟩ ≠ 0 := by
    simp only [BaseSID] at hge
    omega
  have h63 : Int64u ⟨A, I, T, U⟩ < 9223372036854775808 := by
    have he : (2 : Nat) ^ 63 = 9223372036854775808 := by norm_num
    rw [he] at hlt
    exact hlt
  have hs : Int64s ⟨A, I, T, U⟩ = ((Int64u ⟨A, I, T, U⟩ : Nat) : Int) := by
    rw [Int64s, if_pos h63]
  rw [hs, NewInt64, if_neg (by exact_mod_cast hnz), intToChars,
    if_neg (not_lt.mpr (Int.natCast_nonneg _))]
  have htn : ((Int64u ⟨A, I, T, U⟩ : Nat) : Int).toNat = Int64u ⟨A, I, T, U⟩ := by simp
  rw [htn, newSidChars_natToChars hnz (by rw [hpack]; simp only [U64]; omega),
    newFromU64_unpack hge, hpack]
  simp only [SteamID.mk.injEq]
  refine ⟨by omega, by omega, by omega, by omega⟩

/-- Witness for C2 at the quadruple (Universe 1, AccountType 1, Instance 1,
AccountID 5). -/
theorem c2_pack_unpack_witness : NewInt64 (Int64s ⟨5, 1, 1, 1⟩) = ⟨5, 1, 1, 1⟩ :=
  c2_pack_unpack_high 1 1 1 5 (by decide) (by decide) (by decide) (by decide) (by decide)
    (by decide)

/-- Counterexample to C2 as stated: the in-range quadruple (Universe 0,
AccountType 0, Instance 0, AccountID 5) packs to 5, which `New` decodes as a
bare account id, synthesizing Public/Individual/Desktop. -/
theorem c2_pack_unpack_counterexample :
    NewInt64 (Int64s ⟨5, 0, 0, 0⟩) = ⟨5, 1, 1, 1⟩ ∧
      (⟨5, 1, 1, 1⟩ : SteamID) ≠ ⟨5, 0, 0, 0⟩ := by decide

/-- C3: the constructor is total and returns the canonical all-zero invalid
identifier on unparseable input; in particular the empty string, "asdf" and
"0" all map to it, and it fails `Valid`. -/
theorem c3_new_total_invalid :
    New "" = invalidSid ∧ New "asdf" = invalidSid ∧ New "0" = invalidSid ∧
      Valid invalidSid = false ∧
      ∀ s : String, parseSteam2? s.data = none → parseSteam3? s.data = none →
        parseUint64? s.data = none → New s = invalidSid := by
  refine ⟨by decide, by decide, by decide, by decide, ?_⟩
  intro s h2 h3 h64
  rw [New, newSidChars]
  split_ifs
  · rfl
  · rfl
  · rw [h2, h3, h64]
    simp [newSidDispatch]

/-- Witness for C3's universally quantified part at the unparseable input
"zzz". -/
theorem c3_new_total_invalid_witness : New "zzz" = invalidSid :=
  c3_new_total_invalid.2.2.2.2 "zzz" (by decide) (by decide) (by decide)

/-- C4 (amended): a nonzero plain decimal input below `BaseSID` becomes a
bare account id truncated modulo `2 ^ 32` with Public/Individual/Desktop
synthesized; at or above `BaseSID` (and below `2 ^ 64`, else the parse
fails) the value is unpacked into all four fields by the shift/mask
formula. -/
theorem c4_plain_integer_dispatch (s : String) (n : Nat)
    (hp : parseUint64? s.data = some n) (hn : n ≠ 0) :
    (n < BaseSID → New s = { AccountID := n % 2 ^ 32, Instance := InstanceDesktop,
                             AccountType := AccountTypeIndividual,
                             Universe := UniversePublic }) ∧
    (BaseSID ≤ n → New s = { AccountID := n % 2 ^ 32, Instance := n / 2 ^ 32 % 2 ^ 20,
                             AccountType := n / 2 ^ 52 % 2 ^ 4,
                             Universe := n / 2 ^ 56 }) := by
  constructor
  · intro hlt
    rw [newSid_parseUint64 hp hn, newFromU64_bare hlt]
    simp only [SteamID.mk.injEq, U32]
    norm_num
  · intro hge
    rw [newSid_parseUint64 hp hn, newFromU64_unpack hge]

/-- Witness for C4 at the bare account id input "172346362". -/
theorem c4_plain_integer_witness :
    New "172346362" = { AccountID := 172346362 % 2 ^ 32, Instance := InstanceDesktop,
                        AccountType := AccountTypeIndividual,
                        Universe := UniversePublic } :=
  (c4_plain_integer_dispatch "172346362" 172346362 (by decide) (by decide)).1 (by decide)

/-- Counterexample to C4 as stated: the decimal input 4294967296 = 2 ^ 32 is
below the threshold, but the stored AccountID is 0, not the integer itself. -/
theorem c4_plain_integer_counterexample :
    New "4294967296" = ⟨0, 1, 1, 1⟩ ∧ (4294967296 : Nat) ≠ 0 := by decide

/-- C5 (amended): a Steam2 input decodes to AccountID
= (accountHalf * 2 + auth) mod 2 ^ 32, AccountType Individual, Instance
Desktop, and the universe digit (0 normalized to Public), provided the
accountHalf digits fit in 64 bits; otherwise the invalid identifier is
returned. -/
theorem c5_steam2_decode (s : String) (u a : Nat) (ds : List Char)
    (hp : parseSteam2? s.data = some (u, a, ds)) :
    (digitsVal ds < 2 ^ 64 → New s = { AccountID := (digitsVal ds * 2 + a) % 2 ^ 32,
                                       Instance := InstanceDesktop,
                                       AccountType := AccountTypeIndividual,
                                       Universe := if u = 0 then UniversePublic else u }) ∧
    (2 ^ 64 ≤ digitsVal ds → New s = invalidSid) := by
  obtain ⟨hu, ha, t, hhead⟩ := parseSteam2?_sound hp
  have hz : s.data ≠ ['0'] := by rw [hhead]; simp
  have hne : s.data ≠ [] := by rw [hhead]; simp
  constructor
  · intro hlt
    rw [New, newSidChars, if_neg hz, if_neg hne, hp]
    simp only [newSidDispatch]
    rw [if_pos (show digitsVal ds < U64 by simp only [U64]; omega)]
    simp only [SteamID.mk.injEq]
    refine ⟨by simp only [U64, U32]; omega, trivial, trivial, ?_⟩
    rcases Nat.eq_zero_or_pos u with h0 | h0
    · simp [h0, UniversePublic]
    · rw [if_pos h0, if_neg (by omega)]
  · intro hge
    rw [New, newSidChars, if_neg hz, if_neg hne, hp]
    simp only [newSidDispatch]
    rw [if_neg (by simp only [U64]; omega)]

/-- Witness for C5 at the input "STEAM_0:0:86173181". -/
theorem c5_steam2_decode_witness :
    New "STEAM_0:0:86173181" = { AccountID := (digitsVal "86173181".data * 2 + 0) % 2 ^ 32,
                                 Instance := InstanceDesktop,
                                 AccountType := AccountTypeIndividual,
                                 Universe := if 0 = 0 then UniversePublic else 0 } :=
  (c5_steam2_decode "STEAM_0:0:86173181" 0 0 "86173181".data (by decide)).1 (by decide)

/-- Counterexample to C5 as stated: for accountHalf 2147483648 = 2 ^ 31 the
claimed AccountID accountHalf*2 + auth = 2 ^ 32 does not fit in the uint32
field; the code stores 0. -/
theorem c5_steam2_decode_counterexample :
    New "STEAM_0:0:2147483648" = ⟨0, 1, 1, 1⟩ ∧ (2147483648 * 2 + 0 : Nat) ≠ 0 := by decide

/-- C6: `Steam3` emits exactly the specification's bracketed form: the fixed
type-letter table overridden by the ClanMask/Lobby instance bits, and a 4th
colon-segment carrying the Instance exactly when AccountType is
AnonGameServer, MultiSeat, or Individual with a non-Desktop instance. -/
theorem c6_steam3_letter_instance (t : SteamID) : Steam3Chars t = specSteam3 t := by
  have hlet : letterOf t.AccountType = specLetterTable t.AccountType := by
    simp only [letterOf, specLetterTable, AccountTypeIndividual, AccountTypeMultiSeat,
      AccountTypeGameServer, AccountTypeAnonGameServer, AccountTypePending,
      AccountTypeContentServer, AccountTypeClan, AccountTypeChat, AccountTypeP2PSuperSeeder,
      AccountTypeAnonUser]
  simp only [Steam3Chars, specSteam3, specSteam3Letter, specSteam3Appends, hlet]
  split_ifs <;> simp_all

/-- Witness for C6 at a Chat identifier with the ClanMask bit set. -/
theorem c6_steam3_letter_instance_witness :
    Steam3Chars ⟨5, 524288, 8, 1⟩ = specSteam3 ⟨5, 524288, 8, 1⟩ :=
  c6_steam3_letter_instance ⟨5, 524288, 8, 1⟩

/-- C8 (amended): the steam3 regular expression requires both the leading
bracket and the trailing bracket: every successfully parsed steam3 string
starts with a left bracket and ends with a right bracket, and the
un-bracketed inner content is not parsed (it yields the invalid identifier,
unlike the bracketed form). -/
theorem c8_steam3_brackets_required :
    (∀ (cs : List Char) (r : Char × Nat × List Char), parseSteam3? cs = some r →
      cs.head? = some '[' ∧ cs.getLast? = some ']') ∧
    New "U:1:172346362" = invalidSid :=
  ⟨fun _ _ h => parseSteam3?_brackets h, by decide⟩

/-- Witness for C8's universally quantified part at "[U:1:2]". -/
theorem c8_steam3_brackets_witness :
    "[U:1:2]".data.head? = some '[' ∧ "[U:1:2]".data.getLast? = some ']' :=
  c8_steam3_brackets_required.1 "[U:1:2]".data ('U', 1, ['2']) (by decide)

/-- Counterexample to C8 as stated: dropping the brackets (or just the
trailing one) from a well-formed steam3 string yields the invalid identifier
rather than the same identifier. -/
theorem c8_steam3_brackets_counterexample :
    New "U:1:172346362" = invalidSid ∧ New "[U:1:172346362" = invalidSid ∧
      New "[U:1:172346362]" = ⟨172346362, 1, 1, 1⟩ ∧
      invalidSid ≠ (⟨172346362, 1, 1, 1⟩ : SteamID) := by decide

/-- C10: a plain decimal input in [2^32, BaseSID) is truncated to its low 32
bits with Public/Individual/Desktop synthesized, so two such inputs that
agree modulo 2^32 produce equal identifiers. -/
theorem c10_bare_truncation :
    (∀ (s : String) (n : Nat), parseUint64? s.data = some n → 2 ^ 32 ≤ n → n < BaseSID →
      New s = { AccountID := n % 2 ^ 32, Instance := InstanceDesktop,
                AccountType := AccountTypeIndividual, Universe := UniversePublic }) ∧
    (∀ (s1 s2 : String) (n1 n2 : Nat), parseUint64? s1.data = some n1 →
      parseUint64? s2.data = some n2 → 2 ^ 32 ≤ n1 → n1 < BaseSID → 2 ^ 32 ≤ n2 →
      n2 < BaseSID → n1 % 2 ^ 32 = n2 % 2 ^ 32 → New s1 = New s2) := by
  have main : ∀ (s : String) (n : Nat), parseUint64? s.data = some n → 2 ^ 32 ≤ n →
      n < BaseSID → New s = { AccountID := n % 2 ^ 32, Instance := InstanceDesktop,
                              AccountType := AccountTypeIndividual,
                              Universe := UniversePublic } := by
    intro s n hp h32 hlt
    rw [newSid_parseUint64 hp (by omega), newFromU64_bare hlt]
    simp only [SteamID.mk.injEq, U32]
    norm_num
  refine ⟨main, ?_⟩
  intro s1 s2 n1 n2 hp1 hp2 h321 hlt1 h322 hlt2 hmod
  rw [main s1 n1 hp1 h321 hlt1, main s2 n2 hp2 h322 hlt2, hmod]

/-- Witness for C10 at the inputs 4294967296 and 8589934592, which agree
modulo 2^32. -/
theorem c10_bare_truncation_witness : New "4294967296" = New "8589934592" :=
  c10_bare_truncation.2 "4294967296" "8589934592" 4294967296 8589934592 (by decide)
    (by decide) (by decide) (by decide) (by decide) (by decide) (by decide)

/-! ### Lemmas: the scanner key set -/

theorem foldl_insertKey_mem : ∀ (ks acc : List Nat) (k : Nat),
    k ∈ ks.foldl insertKey acc ↔ k ∈ acc ∨ k ∈ ks := by
  intro ks
  induction ks with
  | nil => simp
  | cons a l ih =>
    intro acc k
    rw [List.foldl_cons, ih]
    rw [insertKey]
    by_cases ha : a ∈ acc
    · rw [if_pos ha]
      constructor
      · rintro (h | h)
        · exact Or.inl h
        · exact Or.inr (List.mem_cons_of_mem a h)
      · rintro (h | h)
        · exact Or.inl h
        · rcases List.mem_cons.1 h with rfl | h
          · exact Or.inl ha
          · exact Or.inr h
    · rw [if_neg ha]
      simp only [List.mem_append, List.mem_singleton, List.mem_cons]
      tauto

theorem foldl_insertKey_nodup : ∀ (ks acc : List Nat), acc.Nodup →
    (ks.foldl insertKey acc).Nodup := by
  intro ks
  induction ks with
  | nil => intro acc h; simpa using h
  | cons a l ih =>
    intro acc h
    rw [List.foldl_cons]
    apply ih
    rw [insertKey]
    by_cases ha : a ∈ acc
    · rwa [if_pos ha]
    · rw [if_neg ha]
      rw [List.nodup_append]
      exact ⟨h, List.nodup_singleton a, fun x hx hx1 => ha (by
        rw [List.mem_singleton] at hx1
        exact hx1 ▸ hx)⟩

theorem mem_dedupKeys {ks : List Nat} {k : Nat} : k ∈ dedupKeys ks ↔ k ∈ ks := by
  rw [dedupKeys, foldl_insertKey_mem]
  simp

theorem nodup_dedupKeys (ks : List Nat) : (dedupKeys ks).Nodup :=
  foldl_insertKey_nodup ks [] List.nodup_nil

/-- C7 (amended): the scanner's returned identifiers are one per distinct
packed 64-bit value among the pattern matches: a key is in the set exactly
when it is the `Int64` of a decoded Steam2-pattern match, of a Steam64-pattern
match that passes `Valid` (only those are validity-filtered), or of a
Steam3-pattern match; the set is duplicate-free.  The emission order is Go's
map-iteration order and is unspecified. -/
theorem c7_scanner_key_set (body : String) (k : Nat) :
    (k ∈ parseStringKeys body ↔
      ((∃ m ∈ findAll matchSID2At body.data, Int64u (newSidChars m) = k) ∨
       (∃ m ∈ findAll matchSID64At body.data, Valid (newSidChars m) = true ∧
          Int64u (newSidChars m) = k) ∨
       (∃ m ∈ findAll matchSID3At body.data, Int64u (newSidChars m) = k))) ∧
    (parseStringKeys body).Nodup := by
  constructor
  · rw [parseStringKeys, mem_dedupKeys]
    simp only [List.mem_append, List.mem_map, List.mem_filter]
    constructor
    · rintro ((⟨m, hm, he⟩ | ⟨m, hm, he⟩) | ⟨m, hm, he⟩)
      · exact Or.inl ⟨m, hm, he⟩
      · exact Or.inr (Or.inl ⟨m, hm.1, hm.2, he⟩)
      · exact Or.inr (Or.inr ⟨m, hm, he⟩)
    · rintro (⟨m, hm, he⟩ | ⟨m, hm, hv, he⟩ | ⟨m, hm, he⟩)
      · exact Or.inl (Or.inl ⟨m, hm, he⟩)
      · exact Or.inl (Or.inr ⟨m, ⟨hm, hv⟩, he⟩)
      · exact Or.inr ⟨m, hm, he⟩
  · exact nodup_dedupKeys _

/-- Witness for C7 at a body holding one Steam2 identifier. -/
theorem c7_scanner_key_set_witness :
    76561198132612090 ∈ parseStringKeys "STEAM_0:0:86173181" :=
  (c7_scanner_key_set "STEAM_0:0:86173181" 76561198132612090).1.mpr (by decide)

/-- Counterexample to C7 as stated: scanning "STEAM_0:0:0" returns exactly
one identifier, the Individual identifier with AccountID 0, which fails
`Valid` — an identifier that fails to decode to a valid identifier is NOT
silently skipped (only the Steam64-pattern matches are validity-checked). -/
theorem c7_scanner_counterexample :
    parseStringIds "STEAM_0:0:0" = [⟨0, 1, 1, 1⟩] ∧ Valid ⟨0, 1, 1, 1⟩ = false := by decide

/-! ### Lemmas: the status parser -/

theorem sumSeconds_fail_at : ∀ (segs : List (List Char)) (i : Nat) (acc : Int) (j : Nat),
    j < segs.length → i + j ≤ 3 → parseUint64? (segs.getD j []) = none →
    (∀ j2 < j, parseUint64? (segs.getD j2 []) ≠ none) →
    sumSeconds segs i acc = .fail := by
  intro segs
  induction segs with
  | nil => intro i acc j hj; simp at hj
  | cons a l ih =>
    intro i acc j hj hij hfail hok
    cases j with
    | zero =>
      rw [List.getD_cons_zero] at hfail
      rw [sumSeconds, hfail]
    | succ j2 =>
      have h0 : parseUint64? a ≠ none := by
        have := hok 0 (by omega)
        rwa [List.getD_cons_zero] at this
      obtain ⟨v, hv⟩ := Option.ne_none_iff_exists'.mp h0
      rw [sumSeconds, hv]
      simp only [if_neg (show ¬3 ≤ i by omega)]
      exact ih (i + 1) _ j2 (by simpa using hj) (by omega)
        (by rwa [List.getD_cons_succ] at hfail)
        (fun j3 h3 => by
          have := hok (j3 + 1) (by omega)
          rwa [List.getD_cons_succ] at this)

theorem sumSeconds_crash_at : ∀ (segs : List (List Char)) (i : Nat) (acc : Int),
    i ≤ 3 → 4 ≤ i + segs.length →
    (∀ j, i + j ≤ 3 → j < segs.length → parseUint64? (segs.getD j []) ≠ none) →
    sumSeconds segs i acc = .crash := by
  intro segs
  induction segs with
  | nil => intro i acc hi hlen; simp at hlen; omega
  | cons a l ih =>
    intro i acc hi hlen hok
    have h0 : parseUint64? a ≠ none := by
      have := hok 0 (by omega) (by simp)
      rwa [List.getD_cons_zero] at this
    obtain ⟨v, hv⟩ := Option.ne_none_iff_exists'.mp h0
    simp only [sumSeconds, hv]
    by_cases h3 : 3 ≤ i
    · rw [if_pos h3]
    · rw [if_neg h3]
      refine ih (i + 1) _ (by omega) (by simp at hlen ⊢; omega) ?_
      intro j hj hjl
      have := hok (j + 1) (by omega) (by simp; omega)
      rwa [List.getD_cons_succ] at this

theorem parseStatusLines_err_zero (full : Bool) : ∀ (lines : List (List Char)) (s st : Status)
    (k : ErrKind), parseStatusLines full s lines = .ret st (some k) → st = zeroStatus := by
  intro lines
  induction lines with
  | nil =>
    intro s st k h
    rw [parseStatusLines] at h
    simp at h
  | cons l ls ih =>
    intro s st k h
    rw [parseStatusLines] at h
    cases hp : procLine full s l with
    | next s2 =>
      rw [hp] at h
      exact ih s2 st k h
    | fail k2 =>
      rw [hp] at h
      simp only [POutcome.ret.injEq] at h
      exact h.1.symm
    | crash =>
      rw [hp] at h
      simp at h

/-- C9 (amended): a line containing ": " whose trimmed key is none of the
header keys, and a line matching neither form, are ignored (the state passes
through unchanged and no error arises).  For a line that reaches a matched
player row, each malformed numeric sub-field aborts the call with the error
kind identifying the field, tested in the code's order: user id, ping, loss,
the colon-separated duration segments (ErrParseSeconds), the assembled
duration's ParseDuration range (ErrParseDuration), and in full mode the port
and then the IP — except that a full-mode row whose duration field has four
or more colon-separated segments that all parse panics (index out of range)
instead of returning an error.  Whenever `ParseStatus` returns an error, the
returned `Status` is the zero value. -/
theorem c9_status_strict_errors :
    (∀ (full : Bool) (s : Status) (line p0 p1 : List Char),
        splitColonSpace line = some (p0, p1) → trimRightSpaces p0 ∉ headerKeys →
        procLine full s line = .next s) ∧
    (∀ (full : Bool) (s : Status) (line : List Char), splitColonSpace line = none →
        matchPlayer full line = none → procLine full s line = .next s) ∧
    (∀ (full : Bool) (s : Status) (line : List Char) (caps : List (Nat × List Char)),
        splitColonSpace line = none → matchPlayer full line = some caps →
        ((¬full ∧ caps.length = 7) ∨ (full ∧ caps.length = 9)) →
        (parseUint64? (capGet caps 1) = none → procLine full s line = .fail .userID) ∧
        (parseUint64? (capGet caps 1) ≠ none → parseUint64? (capGet caps 5) = none →
          procLine full s line = .fail .ping) ∧
        (parseUint64? (capGet caps 1) ≠ none → parseUint64? (capGet caps 5) ≠ none →
          parseUint64? (capGet caps 6) = none → procLine full s line = .fail .loss) ∧
        (∀ j, parseUint64? (capGet caps 1) ≠ none → parseUint64? (capGet caps 5) ≠ none →
          parseUint64? (capGet caps 6) ≠ none →
          j < ((splitChar ':' (capGet caps 4)).reverse).length → j ≤ 3 →
          parseUint64? (((splitChar ':' (capGet caps 4)).reverse).getD j []) = none →
          (∀ j2 < j, parseUint64? (((splitChar ':' (capGet caps 4)).reverse).getD j2 []) ≠ none) →
          procLine full s line = .fail .seconds) ∧
        (parseUint64? (capGet caps 1) ≠ none → parseUint64? (capGet caps 5) ≠ none →
          parseUint64? (capGet caps 6) ≠ none →
          4 ≤ ((splitChar ':' (capGet caps 4)).reverse).length →
          (∀ j, j ≤ 3 → parseUint64? (((splitChar ':' (capGet caps 4)).reverse).getD j []) ≠ none) →
          procLine full s line = .crash) ∧
        (∀ tot : Int, parseUint64? (capGet caps 1) ≠ none → parseUint64? (capGet caps 5) ≠ none →
          parseUint64? (capGet caps 6) ≠ none →
          sumSeconds ((splitChar ':' (capGet caps 4)).reverse) 0 0 = .ok tot →
          durationOk tot = false → procLine full s line = .fail .duration) ∧
        (∀ tot : Int, full = true → parseUint64? (capGet caps 1) ≠ none →
          parseUint64? (capGet caps 5) ≠ none → parseUint64? (capGet caps 6) ≠ none →
          sumSeconds ((splitChar ':' (capGet caps 4)).reverse) 0 0 = .ok tot →
          durationOk tot = true → parseUint64? (capGet caps 9) = none →
          procLine full s line = .fail .port) ∧
        (∀ tot : Int, full = true → parseUint64? (capGet caps 1) ≠ none →
          parseUint64? (capGet caps 5) ≠ none → parseUint64? (capGet caps 6) ≠ none →
          sumSeconds ((splitChar ':' (capGet caps 4)).reverse) 0 0 = .ok tot →
          durationOk tot = true → parseUint64? (capGet caps 9) ≠ none →
          goParseIP (capGet caps 8) = false → procLine full s line = .fail .ip)) ∧
    (∀ (text : String) (full : Bool) (st : Status) (k : ErrKind),
        ParseStatus text full = .ret st (some k) → st = zeroStatus) := by
  refine ⟨?_, ?_, ?_, ?_⟩
  · intro full s line p0 p1 hsep hkey
    simp only [headerKeys, List.mem_cons, List.not_mem_nil, or_false, not_or] at hkey
    obtain ⟨k1, k2, k3, k4, k5, k6⟩ := hkey
    simp only [procLine, hsep, procHeader, if_neg k1, if_neg k2, if_neg k3, if_neg k4,
      if_neg k5, if_neg k6]
  · intro full s line hsep hm
    simp only [procLine, hsep, hm]
  · intro full s line caps hsep hm hlen
    have hred : procLine full s line = procPlayerCaps full s caps := by
      simp only [procLine, hsep, hm, if_pos hlen]
    refine ⟨?_, ?_, ?_, ?_, ?_, ?_, ?_, ?_⟩
    · intro h1
      rw [hred]
      simp only [procPlayerCaps, h1]
    · intro h1 h5
      obtain ⟨v1, hv1⟩ := Option.ne_none_iff_exists'.mp h1
      rw [hred]
      simp only [procPlayerCaps, hv1, h5]
    · intro h1 h5 h6
      obtain ⟨v1, hv1⟩ := Option.ne_none_iff_exists'.mp h1
      obtain ⟨v5, hv5⟩ := Option.ne_none_iff_exists'.mp h5
      rw [hred]
      simp only [procPlayerCaps, hv1, hv5, h6]
    · intro j h1 h5 h6 hj hj3 hjf hjok
      obtain ⟨v1, hv1⟩ := Option.ne_none_iff_exists'.mp h1
      obtain ⟨v5, hv5⟩ := Option.ne_none_iff_exists'.mp h5
      obtain ⟨v6, hv6⟩ := Option.ne_none_iff_exists'.mp h6
      have hs := sumSeconds_fail_at ((splitChar ':' (capGet caps 4)).reverse) 0 0 j hj
        (by omega) hjf hjok
      rw [hred]
      simp only [procPlayerCaps, hv1, hv5, hv6, hs]
    · intro h1 h5 h6 hlen4 hok
      obtain ⟨v1, hv1⟩ := Option.ne_none_iff_exists'.mp h1
      obtain ⟨v5, hv5⟩ := Option.ne_none_iff_exists'.mp h5
      obtain ⟨v6, hv6⟩ := Option.ne_none_iff_exists'.mp h6
      have hs := sumSeconds_crash_at ((splitChar ':' (capGet caps 4)).reverse) 0 0
        (by omega) (by omega) (fun j hj _ => hok j (by omega))
      rw [hred]
      simp only [procPlayerCaps, hv1, hv5, hv6, hs]
    · intro tot h1 h5 h6 hs hd
      obtain ⟨v1, hv1⟩ := Option.ne_none_iff_exists'.mp h1
      obtain ⟨v5, hv5⟩ := Option.ne_none_iff_exists'.mp h5
      obtain ⟨v6, hv6⟩ := Option.ne_none_iff_exists'.mp h6
      rw [hred]
      simp only [procPlayerCaps, hv1, hv5, hv6, hs, hd, Bool.not_false, if_true]
    · intro tot hfull h1 h5 h6 hs hd h9
      obtain ⟨v1, hv1⟩ := Option.ne_none_iff_exists'.mp h1
      obtain ⟨v5, hv5⟩ := Option.ne_none_iff_exists'.mp h5
      obtain ⟨v6, hv6⟩ := Option.ne_none_iff_exists'.mp h6
      rw [hred]
      simp only [procPlayerCaps, hv1, hv5, hv6, hs, hd, Bool.not_true, if_false, hfull,
        if_true, h9]
      simp
    · intro tot hfull h1 h5 h6 hs hd h9 hip
      obtain ⟨v1, hv1⟩ := Option.ne_none_iff_exists'.mp h1
      obtain ⟨v5, hv5⟩ := Option.ne_none_iff_exists'.mp h5
      obtain ⟨v6, hv6⟩ := Option.ne_none_iff_exists'.mp h6
      obtain ⟨v9, hv9⟩ := Option.ne_none_iff_exists'.mp h9
      rw [hred]
      simp only [procPlayerCaps, hv1, hv5, hv6, hs, hd, Bool.not_true, if_false, hfull,
        if_true, hv9, hip]
      simp
  · intro text full st k h
    exact parseStatusLines_err_zero full _ _ st k h

/-- Witness for C9: a matched non-full player row whose 20-digit user id
overflows `strconv.ParseUint` aborts with the user-id error kind. -/
theorem c9_status_strict_errors_witness :
    procLine false zeroStatus
      "# 99999999999999999999 \"a\" [U:1:2] 1:2 3 4 active".data = .fail .userID :=
  ((c9_status_strict_errors.2.2.1 false zeroStatus
      "# 99999999999999999999 \"a\" [U:1:2] 1:2 3 4 active".data
      [(7, "active".data), (6, "4".data), (5, "3".data), (4, "1:2".data),
        (3, "[U:1:2]".data), (2, "a".data), (1, "99999999999999999999".data)]
      (by decide) (by decide) (by decide)).1 (by decide))

/-- Counterexample to C9 as stated: a full-mode player row whose duration
field has four colon-separated segments panics with an index-out-of-range
instead of returning an error with the zero-value `Status`. -/
theorem c9_status_strict_errors_counterexample :
    ParseStatus "# 1 \"a\" [U:1:2] 1:2:3:4 10 0 active 1.2.3.4:27005" true = .crash ∧
      (∀ (st : Status) (e : Option ErrKind), POutcome.ret st e ≠ POutcome.crash) :=
  ⟨by decide, fun st e => by simp⟩

end Steamid
